import Mathlib

/-!
# Verification of the zenoh-d435i frame wire codec

Shallow embedding of `src/zenoh_types.rs`: the depth quantizer, the pixel
extractor, the frame-record builders, the envelope codecs and the
combined-frame packer, together with proofs of the specification claims.

Modelling conventions:
* Bytes are `Nat` (values < 256 where it matters); byte buffers are `List Nat`.
* `f32` / `f64` values that are only moved through lossless serialization are
  modelled by their bit patterns (`Nat` below `2^32` / `2^64`); `bincode`
  serializes floats as their little-endian IEEE bit patterns, so a bit-exact
  round trip is exactly a round trip of the bit pattern.
* The depth quantizer's `f32` arithmetic is modelled in exact rational
  arithmetic (`ℚ`), with the Rust `as u16` float-to-int cast modelled by its
  defined semantics: truncate toward zero, then saturate to `[0, 65535]`.
* `bincode` (configuration `standard()`: little-endian, variable-length
  integer encoding) is embedded concretely below.
* `zstd` and `turbojpeg` are external libraries; they enter as parameters
  (`Zstd`, `Jpeg`) together with the contracts the code relies on
  (losslessness for zstd; JPEG decoding rejecting payloads that do not start
  with the SOI marker `0xFF 0xD8`), plus concrete model instances showing the
  contracts are satisfiable.
-/

namespace ZenohD435i
/-! ## Little-endian byte strings and the bincode varint encoding -/

/-- The `k` little-endian bytes of `n` (the low `8*k` bits of `n`). -/
def natToLE : Nat → Nat → List Nat
  | 0, _ => []
  | k + 1, n => n % 256 :: natToLE k (n / 256)

/-- Parse `k` little-endian bytes from the front of a stream. -/
def parseLE : Nat → List Nat → Option (Nat × List Nat)
  | 0, l => some (0, l)
  | _ + 1, [] => none
  | k + 1, b :: l => (parseLE k l).map (fun p => (b + 256 * p.1, p.2))

/-- The bincode variable-length encoding of an unsigned integer
(configuration `standard()`): values below 251 are a single byte; otherwise a
marker byte (251 for `u16`, 252 for `u32`, 253 for `u64`) followed by the
fixed-width little-endian bytes. Faithful for all values below `2^64`. -/
def encodeVarint (n : Nat) : List Nat :=
  if n < 251 then [n]
  else if n < 2 ^ 16 then 251 :: natToLE 2 n
  else if n < 2 ^ 32 then 252 :: natToLE 4 n
  else 253 :: natToLE 8 n

/-- Parse a `bincode` variable-length unsigned integer. -/
def parseVarint : List Nat → Option (Nat × List Nat)
  | [] => none
  | b :: l =>
    if b < 251 then some (b, l)
    else if b = 251 then parseLE 2 l
    else if b = 252 then parseLE 4 l
    else if b = 253 then parseLE 8 l
    else none

/-- Decoding of a bincode `u16`: a varint whose value must fit in 16 bits. -/
def parseU16 (l : List Nat) : Option (Nat × List Nat) := do
  let (n, r) ← parseVarint l
  if n < 2 ^ 16 then some (n, r) else none

/-- The bincode encoding of a `Vec<u8>`: varint length, then the raw bytes. -/
def encodeVecU8 (v : List Nat) : List Nat := encodeVarint v.length ++ v

/-- Decoding of a bincode `Vec<u8>`. -/
def parseVecU8 (l : List Nat) : Option (List Nat × List Nat) := do
  let (n, r) ← parseVarint l
  if n ≤ r.length then some (r.take n, r.drop n) else none

/-- The bincode encoding of a `Vec<u16>`: varint length, then each element as a
varint. -/
def encodeVecU16 (v : List Nat) : List Nat :=
  encodeVarint v.length ++ (v.map encodeVarint).flatten

/-- Parse `k` consecutive `u16` varints. -/
def parseU16s : Nat → List Nat → Option (List Nat × List Nat)
  | 0, l => some ([], l)
  | k + 1, l => do
    let (x, r) ← parseU16 l
    let (xs, r') ← parseU16s k r
    some (x :: xs, r')

/-- Decoding of a bincode `Vec<u16>`. -/
def parseVecU16 (l : List Nat) : Option (List Nat × List Nat) := do
  let (n, r) ← parseVarint l
  parseU16s n r

/-- The bincode encoding of an `f64` by its bit pattern: 8 little-endian bytes. -/
def encodeF64 (bits : Nat) : List Nat := natToLE 8 bits

/-- Decoding of a bincode `f64` bit pattern. -/
def parseF64 (l : List Nat) : Option (Nat × List Nat) := parseLE 8 l

/-- The bincode encoding of an `f32` by its bit pattern: 4 little-endian bytes. -/
def encodeF32 (bits : Nat) : List Nat := natToLE 4 bits

/-- Decoding of a bincode `f32` bit pattern. -/
def parseF32 (l : List Nat) : Option (Nat × List Nat) := parseLE 4 l

/-! ## The depth quantizer (`encode_meters_to_u16` / `decode_u16_to_meters`) -/

/-- Source: `const DEPTH_SCALE_FACTOR: u16 = 8738`. -/
def DEPTH_SCALE_FACTOR : Nat := 8738

/-- Source: `const MINIMUM_DISTANCE_METERS: f32 = 0.5`. -/
def MINIMUM_DISTANCE_METERS : ℚ := 1 / 2

/-- Source: `((meters - MINIMUM_DISTANCE_METERS) * DEPTH_SCALE_FACTOR as f32) as u16`.
The arithmetic is modelled exactly over `ℚ`; the Rust float-to-int `as u16`
cast truncates toward zero and saturates to `[0, 65535]`. -/
def encode_meters_to_u16 (meters : ℚ) : Nat :=
  let x := (meters - MINIMUM_DISTANCE_METERS) * (DEPTH_SCALE_FACTOR : ℚ)
  if x < 0 then 0 else min 65535 (Int.toNat ⌊x⌋)

/-- Source: `(code as f32) / DEPTH_SCALE_FACTOR as f32 + MINIMUM_DISTANCE_METERS`. -/
def decode_u16_to_meters (code : Nat) : ℚ :=
  (code : ℚ) / (DEPTH_SCALE_FACTOR : ℚ) + MINIMUM_DISTANCE_METERS

/-! ## The pixel extractor (`get_data_from_pixel`) -/

/-- Model of `realsense_rust::frame::PixelKind`: the channel layouts a source
pixel can carry. Channel values are bytes (or raw `u16` / `f32` bit patterns
for the non-color variants). -/
inductive PixelKind where
  | Yuyv (y u v : Nat)
  | Uyvy (u y v : Nat)
  | Bgr8 (b g r : Nat)
  | Bgra8 (b g r a : Nat)
  | Rgb8 (r g b : Nat)
  | Rgba8 (r g b a : Nat)
  | Raw8 (val : Nat)
  | Y8 (y : Nat)
  | Y16 (y : Nat)
  | Z16 (depth : Nat)
  | Distance (distance : Nat)
  | Xyz32f (x y z : Nat)
deriving DecidableEq

/-- Source struct `RGB8Local { b: u8, g: u8, r: u8 }`. -/
structure RGB8Local where
  b : Nat
  g : Nat
  r : Nat
deriving DecidableEq

/-- Source: `get_data_from_pixel` matches `PixelKind::Bgr8 { b, g, r }` and
panics (`none` here) on every other pixel layout. -/
def get_data_from_pixel : PixelKind → Option RGB8Local
  | PixelKind.Bgr8 b g r => some ⟨b, g, r⟩
  | _ => none

/-! ## External compression libraries as parameters -/

/-- An implementation of the zstd streaming interface used by the source:
`copy_encode(data, out, level)` and `decode_all(buf)` (failure is `none`). -/
structure Zstd where
  comp : Nat → List Nat → List Nat
  decomp : List Nat → Option (List Nat)

/-- The zstd contract the source relies on: decompression inverts compression
at every level (zstd is a lossless codec). -/
def Zstd.Lossless (z : Zstd) : Prop :=
  ∀ lvl d, z.decomp (z.comp lvl d) = some d

/-- An implementation of the turbojpeg interface used by the source:
`compress_image` on a `width × height` RGB buffer (quality 75, 2x2 chroma
subsampling are fixed in the source) and `decompress_image`, returning the
decoded width, height and RGB bytes, or `none` on failure. -/
structure Jpeg where
  comp : Nat → Nat → List Nat → List Nat
  decomp : List Nat → Option (Nat × Nat × List Nat)

/-- The turbojpeg contract that compressed images decompress successfully. -/
def Jpeg.Decodes (j : Jpeg) : Prop :=
  ∀ w h d, ∃ out, j.decomp (j.comp w h d) = some out

/-- The JPEG format contract: a payload that does not begin with the SOI
marker bytes `0xFF 0xD8` is not a JPEG stream and decompression fails. -/
def Jpeg.SoiRequired (j : Jpeg) : Prop :=
  ∀ l, l.take 2 ≠ [255, 216] → j.decomp l = none

/-- A concrete model zstd instance (header mimicking the zstd frame magic
`0x28 0xB5 0x2F 0xFD` plus the level, then the raw bytes), showing the
`Zstd.Lossless` contract is satisfiable. -/
def zstdModel : Zstd where
  comp := fun lvl d => 40 :: 181 :: 47 :: 253 :: (lvl % 256) :: d
  decomp := fun l =>
    match l with
    | a :: b :: c :: e :: _ :: d =>
      if a = 40 ∧ b = 181 ∧ c = 47 ∧ e = 253 then some d else none
    | _ => none

/-- A concrete model JPEG instance (SOI marker, then dimensions, then the
bytes), showing the `Jpeg.Decodes` and `Jpeg.SoiRequired` contracts are
satisfiable. -/
def jpegModel : Jpeg where
  comp := fun w h d => 255 :: 216 :: w :: h :: d
  decomp := fun l =>
    match l with
    | a :: b :: w :: h :: d => if a = 255 ∧ b = 216 then some (w, h, d) else none
    | _ => none

/-! ## Captured frames (the RealSense sources consumed by the builders) -/

/-- Model of a captured `realsense_rust` `DepthFrame`: dimensions, the
per-pixel `distance(col, row)` in meters (exact rationals standing for the
`f32` samples), and the frame timestamp (`f64` bit pattern). -/
structure DepthFrame where
  width : Nat
  height : Nat
  distance : Nat → Nat → ℚ
  timestamp : Nat

/-- Model of a captured `realsense_rust` `ColorFrame`: dimensions and the
per-pixel `get(col, row)`. -/
structure ColorFrame where
  width : Nat
  height : Nat
  get : Nat → Nat → PixelKind

/-! ## Frame records and their builders -/

/-- Source struct `DepthFrameSerializable { width: usize, height: usize,
data: Vec<u16>, timestamp: f64 }`. -/
structure DepthFrameSerializable where
  width : Nat
  height : Nat
  data : List Nat
  timestamp : Nat
deriving DecidableEq

/-- Source: `DepthFrameSerializable::new` — the nested push loop
(outer over rows, inner over columns) quantizing every sample. -/
def DepthFrameSerializable.new (frame : DepthFrame) (timestamp : Nat) :
    DepthFrameSerializable where
  width := frame.width
  height := frame.height
  data := ((List.range frame.height).map (fun row =>
    (List.range frame.width).map (fun col =>
      encode_meters_to_u16 (frame.distance col row)))).flatten
  timestamp := timestamp

/-- The bincode (`standard()`) serialization of `DepthFrameSerializable`,
fields in declaration order. -/
def DepthFrameSerializable.bincodeEncode (d : DepthFrameSerializable) : List Nat :=
  encodeVarint d.width ++ encodeVarint d.height ++ encodeVecU16 d.data ++
    encodeF64 d.timestamp

/-- The bincode (`standard()`) deserialization of `DepthFrameSerializable`. -/
def DepthFrameSerializable.bincodeDecode (l : List Nat) :
    Option (DepthFrameSerializable × List Nat) := do
  let (w, r1) ← parseVarint l
  let (h, r2) ← parseVarint r1
  let (data, r3) ← parseVecU16 r2
  let (ts, r4) ← parseF64 r3
  some (⟨w, h, data, ts⟩, r4)

/-- Source: `DepthFrameSerializable::encodeAndCompress` — bincode then a
zstd pass at level 6. -/
def DepthFrameSerializable.encodeAndCompress (z : Zstd) (d : DepthFrameSerializable) :
    List Nat :=
  z.comp 6 d.bincodeEncode

/-- Source struct `ColorFrameSerializable { width: usize, height: usize,
data: Vec<u8>, timestamp: f64 }`. -/
structure ColorFrameSerializable where
  width : Nat
  height : Nat
  data : List Nat
  timestamp : Nat
deriving DecidableEq

/-- The row-major RGB byte buffer built by the nested loop shared by
`ColorFrameSerializable::new` and `CombinedFrameWire::from_frames`: for each
row, for each column, push `px.r`, `px.g`, `px.b` from `get_data_from_pixel`;
`none` when any pixel has an unsupported layout (the source panics). -/
def rgbRowMajor (frame : ColorFrame) : Option (List Nat) :=
  (((List.range frame.height).mapM (fun row =>
    (((List.range frame.width).mapM (fun col =>
      (get_data_from_pixel (frame.get col row)).map
        (fun px => [px.r, px.g, px.b])))).map List.flatten))).map List.flatten

/-- Source: `ColorFrameSerializable::new`. -/
def ColorFrameSerializable.new (frame : ColorFrame) (timestamp : Nat) :
    Option ColorFrameSerializable :=
  (rgbRowMajor frame).map (fun data =>
    { width := frame.width, height := frame.height, data := data,
      timestamp := timestamp })

/-- The bincode (`standard()`) serialization of `ColorFrameSerializable`. -/
def ColorFrameSerializable.bincodeEncode (c : ColorFrameSerializable) : List Nat :=
  encodeVarint c.width ++ encodeVarint c.height ++ encodeVecU8 c.data ++
    encodeF64 c.timestamp

/-- The bincode (`standard()`) deserialization of `ColorFrameSerializable`. -/
def ColorFrameSerializable.bincodeDecode (l : List Nat) :
    Option (ColorFrameSerializable × List Nat) := do
  let (w, r1) ← parseVarint l
  let (h, r2) ← parseVarint r1
  let (data, r3) ← parseVecU8 r2
  let (ts, r4) ← parseF64 r3
  some (⟨w, h, data, ts⟩, r4)

/-- Source struct `ImageForWire { image: Vec<u8>, timestamp: f64 }`. -/
structure ImageForWire where
  image : List Nat
  timestamp : Nat
deriving DecidableEq

/-- Source: `ColorFrameSerializable::encodeAndCompress` — JPEG-compress the
RGB buffer (quality 75, 2x2 subsampling), wrap it with the timestamp in an
`ImageForWire` envelope, and bincode the envelope (no zstd pass). -/
def ColorFrameSerializable.encodeAndCompress (j : Jpeg) (c : ColorFrameSerializable) :
    List Nat :=
  let jpeg := j.comp c.width c.height c.data
  encodeVecU8 jpeg ++ encodeF64 c.timestamp

/-- Source: `ColorFrameSerializable::decodeAndDecompress` — bincode-decode the
`ImageForWire` envelope, check the JPEG SOI magic (the source's
`debug_assert!(wire.image.starts_with(&[0xFF, 0xD8]))`), then JPEG-decompress;
any failure (`unwrap` panic in the source) is `none`. -/
def ColorFrameSerializable.decodeAndDecompress (j : Jpeg) (encoded : List Nat) :
    Option (List Nat × Nat) := do
  let (image, r1) ← parseVecU8 encoded
  let (ts, _) ← parseF64 r1
  if image.take 2 = [255, 216] then
    match j.decomp image with
    | some (_, _, rgb) => some (rgb, ts)
    | none => none
  else none

/-! ## Motion frames -/

/-- Source struct `MotionFrameData { gyro: [f32; 3], accel: [f32; 3],
timestamp: f64 }`, the float components modelled by their bit patterns. -/
structure MotionFrameData where
  gyro : Nat × Nat × Nat
  accel : Nat × Nat × Nat
  timestamp : Nat
deriving DecidableEq

/-- Source: `MotionFrameData::new`. -/
def MotionFrameData.new (gyro accel : Nat × Nat × Nat) (timestamp : Nat) :
    MotionFrameData :=
  ⟨gyro, accel, timestamp⟩

/-- Source: `MotionFrameData::encodeAndCompress` — despite the name, only the
bincode serialization (fixed arrays are encoded element-wise with no length
prefix); there is no compression pass. -/
def MotionFrameData.encodeAndCompress (m : MotionFrameData) : List Nat :=
  encodeF32 m.gyro.1 ++ encodeF32 m.gyro.2.1 ++ encodeF32 m.gyro.2.2 ++
    encodeF32 m.accel.1 ++ encodeF32 m.accel.2.1 ++ encodeF32 m.accel.2.2 ++
      encodeF64 m.timestamp

/-- Source: `MotionFrameData::decodeAndDecompress` — bincode deserialization. -/
def MotionFrameData.decodeAndDecompress (encoded : List Nat) :
    Option MotionFrameData := do
  let (g1, r1) ← parseF32 encoded
  let (g2, r2) ← parseF32 r1
  let (g3, r3) ← parseF32 r2
  let (a1, r4) ← parseF32 r3
  let (a2, r5) ← parseF32 r4
  let (a3, r6) ← parseF32 r5
  let (ts, _) ← parseF64 r6
  some ⟨(g1, g2, g3), (a1, a2, a3), ts⟩

/-! ## `CombinedFrame` (the older, unused combined record) -/

/-- Source struct `CombinedFrame { rgb: ColorFrameSerializable,
depth: DepthFrameSerializable, timestamp: f64 }`. -/
structure CombinedFrame where
  rgb : ColorFrameSerializable
  depth : DepthFrameSerializable
  timestamp : Nat
deriving DecidableEq

/-- The bincode (`standard()`) serialization of `CombinedFrame`: the nested
structs field-by-field, in declaration order. -/
def CombinedFrame.bincodeEncode (x : CombinedFrame) : List Nat :=
  x.rgb.bincodeEncode ++ x.depth.bincodeEncode ++ encodeF64 x.timestamp

/-- The bincode (`standard()`) deserialization of `CombinedFrame`. -/
def CombinedFrame.bincodeDecode (l : List Nat) :
    Option (CombinedFrame × List Nat) := do
  let (rgb, r1) ← ColorFrameSerializable.bincodeDecode l
  let (depth, r2) ← DepthFrameSerializable.bincodeDecode r1
  let (ts, r3) ← parseF64 r2
  some (⟨rgb, depth, ts⟩, r3)

/-- Source: `CombinedFrame::encodeAndCompress` — bincode, then a zstd pass at
level 6. -/
def CombinedFrame.encodeAndCompress (z : Zstd) (x : CombinedFrame) : List Nat :=
  z.comp 6 x.bincodeEncode

/-- Source: `CombinedFrame::decodeAndDecompress` — bincode-decodes its input
directly; note there is no zstd decompression step in the source. -/
def CombinedFrame.decodeAndDecompress (encoded : List Nat) : Option CombinedFrame :=
  (CombinedFrame.bincodeDecode encoded).map Prod.fst

/-! ## `CombinedFrameWire` (the combined-frame packer) -/

/-- Source struct `CombinedFrameWire { rgb_jpeg: Vec<u8>, depth_zstd: Vec<u8>,
width: u16, height: u16, timestamp: f64 }`. -/
structure CombinedFrameWire where
  rgb_jpeg : List Nat
  depth_zstd : List Nat
  width : Nat
  height : Nat
  timestamp : Nat
deriving DecidableEq

/-- Source: `CombinedFrameWire::from_frames` — build the depth record with
`DepthFrameSerializable::new(depth, depth.timestamp())`, bincode it, zstd it
at level 3; build the row-major RGB buffer and JPEG it; take `width`/`height`
from the color frame (`as u16` truncates mod `2^16`) and the timestamp from
the depth frame. `none` when a color pixel has an unsupported layout. -/
def CombinedFrameWire.from_frames (z : Zstd) (j : Jpeg) (depth : DepthFrame)
    (color : ColorFrame) : Option CombinedFrameWire :=
  let depth_ser := DepthFrameSerializable.new depth depth.timestamp
  let depth_zstd := z.comp 3 depth_ser.bincodeEncode
  (rgbRowMajor color).map (fun rgb =>
    { rgb_jpeg := j.comp color.width color.height rgb
      depth_zstd := depth_zstd
      width := color.width % 2 ^ 16
      height := color.height % 2 ^ 16
      timestamp := depth.timestamp })

/-- The bincode (`standard()`) serialization of `CombinedFrameWire`: the five
fields in declaration order — rgb payload, depth payload, width (`u16`),
height (`u16`), timestamp (`f64`). -/
def CombinedFrameWire.bincodeEncode (w : CombinedFrameWire) : List Nat :=
  encodeVecU8 w.rgb_jpeg ++ encodeVecU8 w.depth_zstd ++ encodeVarint w.width ++
    encodeVarint w.height ++ encodeF64 w.timestamp

/-- The bincode (`standard()`) deserialization of `CombinedFrameWire`. -/
def CombinedFrameWire.bincodeDecode (l : List Nat) :
    Option (CombinedFrameWire × List Nat) := do
  let (rgb, r1) ← parseVecU8 l
  let (dz, r2) ← parseVecU8 r1
  let (w, r3) ← parseU16 r2
  let (h, r4) ← parseU16 r3
  let (ts, r5) ← parseF64 r4
  some (⟨rgb, dz, w, h, ts⟩, r5)

/-- Source: `CombinedFrameWire::encode` — bincode the five-field record, then
one zstd pass at level 1. -/
def CombinedFrameWire.encode (z : Zstd) (w : CombinedFrameWire) : List Nat :=
  z.comp 1 w.bincodeEncode

/-- Source: `CombinedFrameWire::decode` — `decode_all` (zstd) then bincode. -/
def CombinedFrameWire.decode (z : Zstd) (buf : List Nat) :
    Option CombinedFrameWire := do
  let raw ← z.decomp buf
  let (me, _) ← CombinedFrameWire.bincodeDecode raw
  some me

/-- Source: `CombinedFrameWire::unpack` — JPEG-decompress the color bytes,
zstd-decompress and bincode-decode the depth record, return the expanded
data with the outer width, height and timestamp. -/
def CombinedFrameWire.unpack (z : Zstd) (j : Jpeg) (w : CombinedFrameWire) :
    Option (List Nat × List Nat × Nat × Nat × Nat) := do
  let (_, _, rgb_raw) ← j.decomp w.rgb_jpeg
  let bytes ← z.decomp w.depth_zstd
  let (d, _) ← DepthFrameSerializable.bincodeDecode bytes
  some (rgb_raw, d.data, w.width, w.height, w.timestamp)

/-! ## Auxiliary definitions for stating the claims -/

/-- The three RGB bytes contributed by pixel `(col, row)` to the row-major
buffer (`[]` when the pixel layout is unsupported). -/
def pixelTriplet (frame : ColorFrame) (row col : Nat) : List Nat :=
  ((get_data_from_pixel (frame.get col row)).map
    (fun px => [px.r, px.g, px.b])).getD []

/-- A concrete 1x1 depth frame (1 meter everywhere) used to instantiate the
claims at a concrete input. -/
def depthFrame0 : DepthFrame where
  width := 1
  height := 1
  distance := fun _ _ => 1
  timestamp := 0

/-- A concrete 1x1 BGR8 color frame used to instantiate the claims at a
concrete input. -/
def colorFrame0 : ColorFrame where
  width := 1
  height := 1
  get := fun _ _ => PixelKind.Bgr8 1 2 3

/-- The wire message `from_frames` builds from `depthFrame0` and `colorFrame0`
through the model codecs: the JPEG payload wraps the row-major bytes
`[3, 2, 1]`, the depth payload wraps the bincode record
`(width 1, height 1, data [4369], timestamp 0)`. -/
def wire0 : CombinedFrameWire where
  rgb_jpeg := [255, 216, 1, 1, 3, 2, 1]
  depth_zstd := [40, 181, 47, 253, 3, 1, 1, 1, 251, 17, 17, 0, 0, 0, 0, 0, 0, 0, 0]
  width := 1
  height := 1
  timestamp := 0

/-! ## Round-trip and structural lemmas -/

theorem natToLE_length (k n : Nat) : (natToLE k n).length = k := by
  induction k generalizing n with
  | zero => rfl
  | succ k ih => simp [natToLE, ih]

theorem parseLE_natToLE (k : Nat) : ∀ (n : Nat) (r : List Nat), n < 256 ^ k →
    parseLE k (natToLE k n ++ r) = some (n, r) := by
  induction k with
  | zero =>
    intro n r h
    simp at h
    simp [h, natToLE, parseLE]
  | succ k ih =>
    intro n r h
    have hdiv : n / 256 < 256 ^ k := by
      rw [Nat.div_lt_iff_lt_mul (by norm_num)]
      calc n < 256 ^ (k + 1) := h
        _ = 256 ^ k * 256 := by rw [Nat.pow_succ]
    simp only [natToLE, List.cons_append, parseLE, ih (n / 256) r hdiv, Option.map_some']
    simp only [Option.map_eq_some', Prod.mk.injEq, Prod.exists]
    exact ⟨n / 256, r, ih (n / 256) r hdiv, by simp [Nat.mod_add_div], rfl⟩

theorem parseVarint_encodeVarint (n : Nat) (r : List Nat) (h : n < 2 ^ 64) :
    parseVarint (encodeVarint n ++ r) = some (n, r) := by
  unfold encodeVarint
  by_cases h1 : n < 251
  · simp [parseVarint, h1]
  · by_cases h2 : n < 2 ^ 16
    · simp only [if_neg h1, if_pos h2, List.cons_append, parseVarint]
      norm_num
      exact parseLE_natToLE 2 n r (by norm_num at h2 ⊢; omega)
    · by_cases h3 : n < 2 ^ 32
      · simp only [if_neg h1, if_neg h2, if_pos h3, List.cons_append, parseVarint]
        norm_num
        exact parseLE_natToLE 4 n r (by norm_num at h3 ⊢; omega)
      · simp only [if_neg h1, if_neg h2, if_neg h3, List.cons_append, parseVarint]
        norm_num
        exact parseLE_natToLE 8 n r (by norm_num at h ⊢; omega)

theorem parseU16_encodeVarint (n : Nat) (r : List Nat) (h : n < 2 ^ 16) :
    parseU16 (encodeVarint n ++ r) = some (n, r) := by
  have h' : n < 65536 := by norm_num at h; exact h
  simp [parseU16, parseVarint_encodeVarint n r (by norm_num at h ⊢; omega), h, h']

theorem parseVecU8_encodeVecU8 (v r : List Nat) (h : v.length < 2 ^ 64) :
    parseVecU8 (encodeVecU8 v ++ r) = some (v, r) := by
  simp only [encodeVecU8, List.append_assoc, parseVecU8,
    parseVarint_encodeVarint v.length (v ++ r) h, Option.bind_eq_bind,
    Option.some_bind]
  rw [if_pos (by simp)]
  simp [List.take_left, List.drop_left]

theorem parseU16s_join (v : List Nat) (r : List Nat) (h : ∀ x ∈ v, x < 2 ^ 16) :
    parseU16s v.length ((v.map encodeVarint).flatten ++ r) = some (v, r) := by
  induction v with
  | nil => simp [parseU16s]
  | cons x xs ih =>
    have hx : x < 2 ^ 16 := h x (List.mem_cons_self x xs)
    simp only [List.map_cons, List.flatten_cons, List.length_cons, parseU16s,
      List.append_assoc, parseU16_encodeVarint x _ hx, Option.bind_eq_bind,
      Option.some_bind]
    rw [ih (fun y hy => h y (List.mem_cons_of_mem x hy))]
    rfl

theorem parseVecU16_encodeVecU16 (v r : List Nat) (hlen : v.length < 2 ^ 64)
    (h : ∀ x ∈ v, x < 2 ^ 16) :
    parseVecU16 (encodeVecU16 v ++ r) = some (v, r) := by
  simp only [encodeVecU16, List.append_assoc, parseVecU16,
    parseVarint_encodeVarint v.length _ hlen, Option.bind_eq_bind, Option.some_bind]
  exact parseU16s_join v r h

theorem parseF64_encodeF64 (n : Nat) (r : List Nat) (h : n < 2 ^ 64) :
    parseF64 (encodeF64 n ++ r) = some (n, r) :=
  parseLE_natToLE 8 n r (by norm_num at h ⊢; omega)

theorem parseF32_encodeF32 (n : Nat) (r : List Nat) (h : n < 2 ^ 32) :
    parseF32 (encodeF32 n ++ r) = some (n, r) :=
  parseLE_natToLE 4 n r (by norm_num at h ⊢; omega)

theorem zstdModel_lossless : zstdModel.Lossless := by
  intro lvl d
  simp [zstdModel]

theorem jpegModel_decodes : jpegModel.Decodes := by
  intro w h d
  exact ⟨(w, h, d), by simp [jpegModel]⟩

theorem jpegModel_soiRequired : jpegModel.SoiRequired := by
  intro l hl
  match l with
  | [] => rfl
  | [_] => rfl
  | [_, _] => rfl
  | [_, _, _] => rfl
  | a :: b :: w :: h :: d =>
    simp only [List.take, jpegModel] at hl ⊢
    rw [if_neg]
    intro ⟨ha, hb⟩
    exact hl (by rw [ha, hb])

theorem encode_meters_to_u16_lt (m : ℚ) : encode_meters_to_u16 m < 2 ^ 16 := by
  simp only [encode_meters_to_u16]
  split
  · norm_num
  · calc min 65535 (Int.toNat ⌊(m - MINIMUM_DISTANCE_METERS) * (DEPTH_SCALE_FACTOR : ℚ)⌋)
        ≤ 65535 := min_le_left _ _
      _ < 2 ^ 16 := by norm_num

theorem DepthFrameSerializable.new_data_length (frame : DepthFrame) (ts : Nat) :
    (DepthFrameSerializable.new frame ts).data.length = frame.width * frame.height := by
  simp only [DepthFrameSerializable.new, List.length_flatten, List.map_map]
  have : ((List.range frame.height).map
      (List.length ∘ fun row => (List.range frame.width).map (fun col =>
        encode_meters_to_u16 (frame.distance col row)))) =
      (List.range frame.height).map (fun _ => frame.width) := by
    apply List.map_congr_left
    intro row _
    simp
  rw [this, List.map_const', List.sum_replicate, List.length_range, smul_eq_mul,
    Nat.mul_comm]

theorem DepthFrameSerializable.new_data_lt (frame : DepthFrame) (ts : Nat) :
    ∀ x ∈ (DepthFrameSerializable.new frame ts).data, x < 2 ^ 16 := by
  intro x hx
  simp only [DepthFrameSerializable.new, List.mem_flatten, List.mem_map] at hx
  obtain ⟨l, ⟨row, _, rfl⟩, hxl⟩ := hx
  obtain ⟨col, _, rfl⟩ := List.mem_map.mp hxl
  exact encode_meters_to_u16_lt _

theorem depthRecord_decode_encode
    (d : DepthFrameSerializable) (r : List Nat)
    (hw : d.width < 2 ^ 64) (hh : d.height < 2 ^ 64)
    (hlen : d.data.length < 2 ^ 64) (hdata : ∀ x ∈ d.data, x < 2 ^ 16)
    (hts : d.timestamp < 2 ^ 64) :
    DepthFrameSerializable.bincodeDecode (d.bincodeEncode ++ r) = some (d, r) := by
  simp only [DepthFrameSerializable.bincodeEncode, List.append_assoc,
    DepthFrameSerializable.bincodeDecode, Option.bind_eq_bind,
    parseVarint_encodeVarint d.width _ hw, Option.some_bind,
    parseVarint_encodeVarint d.height _ hh,
    parseVecU16_encodeVecU16 d.data _ hlen hdata,
    parseF64_encodeF64 d.timestamp _ hts]

theorem colorRecord_decode_encode
    (c : ColorFrameSerializable) (r : List Nat)
    (hw : c.width < 2 ^ 64) (hh : c.height < 2 ^ 64)
    (hlen : c.data.length < 2 ^ 64) (hts : c.timestamp < 2 ^ 64) :
    ColorFrameSerializable.bincodeDecode (c.bincodeEncode ++ r) = some (c, r) := by
  simp only [ColorFrameSerializable.bincodeEncode, List.append_assoc,
    ColorFrameSerializable.bincodeDecode, Option.bind_eq_bind,
    parseVarint_encodeVarint c.width _ hw, Option.some_bind,
    parseVarint_encodeVarint c.height _ hh,
    parseVecU8_encodeVecU8 c.data _ hlen,
    parseF64_encodeF64 c.timestamp _ hts]

theorem wireRecord_decode_encode
    (w : CombinedFrameWire) (r : List Nat)
    (h1 : w.rgb_jpeg.length < 2 ^ 64) (h2 : w.depth_zstd.length < 2 ^ 64)
    (h3 : w.width < 2 ^ 16) (h4 : w.height < 2 ^ 16) (h5 : w.timestamp < 2 ^ 64) :
    CombinedFrameWire.bincodeDecode (w.bincodeEncode ++ r) = some (w, r) := by
  simp only [CombinedFrameWire.bincodeEncode, List.append_assoc,
    CombinedFrameWire.bincodeDecode, Option.bind_eq_bind,
    parseVecU8_encodeVecU8 w.rgb_jpeg _ h1, Option.some_bind,
    parseVecU8_encodeVecU8 w.depth_zstd _ h2,
    parseU16_encodeVarint w.width _ h3,
    parseU16_encodeVarint w.height _ h4,
    parseF64_encodeF64 w.timestamp _ h5]

theorem flatten_length_const {α : Type} (k : Nat) (L : List (List α))
    (hk : ∀ l ∈ L, l.length = k) : L.flatten.length = L.length * k := by
  induction L with
  | nil => simp
  | cons l L ih =>
    simp only [List.flatten_cons, List.length_append, List.length_cons,
      hk l (List.mem_cons_self l L), ih (fun x hx => hk x (List.mem_cons_of_mem l hx))]
    ring

theorem flatten_drop_chunk {α : Type} (k : Nat) :
    ∀ (L : List (List α)), (∀ l ∈ L, l.length = k) → ∀ i, i < L.length →
      L.flatten.drop (i * k) = L.getD i [] ++ (L.drop (i + 1)).flatten := by
  intro L
  induction L with
  | nil => intro _ i hi; simp at hi
  | cons l L ih =>
    intro hk i hi
    cases i with
    | zero => simp
    | succ i =>
      have hl : l.length = k := hk l (List.mem_cons_self l L)
      have harith : (i + 1) * k = l.length + i * k := by rw [hl]; ring
      simp only [List.flatten_cons, harith, List.drop_append, List.getD_cons_succ,
        List.drop_succ_cons]
      exact ih (fun x hx => hk x (List.mem_cons_of_mem l hx)) i
        (by simpa using hi)

theorem flatten_get_chunk {α : Type} (k : Nat) (L : List (List α))
    (hk : ∀ l ∈ L, l.length = k) (i j : Nat) (hi : i < L.length) (hj : j < k) :
    L.flatten[i * k + j]? = (L.getD i [])[j]? := by
  have hmem : L.getD i [] ∈ L := by
    rw [List.getD_eq_getElem L [] hi]
    exact List.getElem_mem hi
  have h1 : L.flatten[i * k + j]? = (L.flatten.drop (i * k))[j]? := by
    rw [List.getElem?_drop]
  rw [h1, flatten_drop_chunk k L hk i hi, List.getElem?_append_left]
  rw [hk (L.getD i []) hmem]
  exact hj

theorem mapM_eq_map {α β : Type} {l : List α} {f : α → Option β} {g : α → β}
    (h : ∀ a ∈ l, f a = some (g a)) : l.mapM f = some (l.map g) := by
  induction l with
  | nil => rfl
  | cons a l ih =>
    rw [List.mapM_cons, h a (List.mem_cons_self a l),
      ih (fun x hx => h x (List.mem_cons_of_mem a hx))]
    rfl

theorem pixelTriplet_eq (frame : ColorFrame) (row col : Nat) (px : RGB8Local)
    (hpx : get_data_from_pixel (frame.get col row) = some px) :
    pixelTriplet frame row col = [px.r, px.g, px.b] := by
  simp [pixelTriplet, hpx]

theorem rgbRowMajor_eq_of_supported (frame : ColorFrame)
    (hsupp : ∀ row col, row < frame.height → col < frame.width →
      ∃ px, get_data_from_pixel (frame.get col row) = some px) :
    rgbRowMajor frame = some (((List.range frame.height).map (fun row =>
      ((List.range frame.width).map (pixelTriplet frame row)).flatten)).flatten) := by
  unfold rgbRowMajor
  rw [mapM_eq_map (g := fun row =>
    ((List.range frame.width).map (pixelTriplet frame row)).flatten) ?_]
  · rfl
  · intro row hrow
    rw [mapM_eq_map (g := pixelTriplet frame row) ?_]
    · rfl
    · intro col hcol
      obtain ⟨px, hpx⟩ := hsupp row col (List.mem_range.mp hrow) (List.mem_range.mp hcol)
      rw [hpx, pixelTriplet_eq frame row col px hpx]
      rfl

/-! ## The claims -/

/-- C2: `encode_meters_to_u16(m)` computes `round_down((m - MIN_METERS) * SCALE)`
with `MIN_METERS = 0.5` and `SCALE = 8738`, `decode_u16_to_meters(code)`
computes `code / SCALE + MIN_METERS`, and for every `m` in the sensor's valid
range `[MIN_METERS, 65535/SCALE + MIN_METERS]`, `decode(encode(m))` differs
from `m` by at most `1/SCALE` meters. -/
theorem claim_C2 (m : ℚ) (h1 : MINIMUM_DISTANCE_METERS ≤ m)
    (h2 : m ≤ 65535 / (DEPTH_SCALE_FACTOR : ℚ) + MINIMUM_DISTANCE_METERS) :
    encode_meters_to_u16 m =
      Int.toNat ⌊(m - MINIMUM_DISTANCE_METERS) * (DEPTH_SCALE_FACTOR : ℚ)⌋ ∧
    (∀ code : Nat, decode_u16_to_meters code =
      (code : ℚ) / (DEPTH_SCALE_FACTOR : ℚ) + MINIMUM_DISTANCE_METERS) ∧
    |decode_u16_to_meters (encode_meters_to_u16 m) - m| ≤
      1 / (DEPTH_SCALE_FACTOR : ℚ) := by
  have hS : (DEPTH_SCALE_FACTOR : ℚ) = 8738 := by norm_num [DEPTH_SCALE_FACTOR]
  have hMin : MINIMUM_DISTANCE_METERS = 1 / 2 := rfl
  rw [hMin] at h1
  rw [hS, hMin] at h2
  set x : ℚ := (m - MINIMUM_DISTANCE_METERS) * (DEPTH_SCALE_FACTOR : ℚ) with hxdef
  have hx0 : 0 ≤ x := by
    rw [hxdef, hS, hMin]; nlinarith
  have hx65535 : x ≤ 65535 := by
    rw [hxdef, hS, hMin]; nlinarith
  have hfl0 : 0 ≤ ⌊x⌋ := Int.floor_nonneg.mpr hx0
  have hfl_le : (⌊x⌋ : ℚ) ≤ x := Int.floor_le x
  have hfl_gt : x - 1 < (⌊x⌋ : ℚ) := by
    have := Int.lt_floor_add_one x; linarith
  have hfl65535 : ⌊x⌋ ≤ 65535 := by
    have h : (⌊x⌋ : ℚ) ≤ 65535 := le_trans hfl_le hx65535
    exact_mod_cast h
  have henc : encode_meters_to_u16 m = Int.toNat ⌊x⌋ := by
    simp only [encode_meters_to_u16, ← hxdef]
    rw [if_neg (not_lt.mpr hx0), min_eq_right (by omega)]
  refine ⟨henc, fun code => rfl, ?_⟩
  have hcast : ((Int.toNat ⌊x⌋ : Nat) : ℚ) = ((⌊x⌋ : ℤ) : ℚ) := by
    exact_mod_cast congrArg (fun i : ℤ => (i : ℚ)) (Int.toNat_of_nonneg hfl0)
  have hmx : m = x / 8738 + 1 / 2 := by
    rw [hxdef, hS, hMin]; field_simp; ring
  rw [henc]
  simp only [decode_u16_to_meters, hcast, hS, hMin]
  rw [hmx, abs_le]
  constructor
  · linarith
  · linarith

/-- C2 witness: the contract instantiated at `m = 1` meter. -/
theorem claim_C2_witness :
    MINIMUM_DISTANCE_METERS ≤ (1 : ℚ) ∧
    (1 : ℚ) ≤ 65535 / (DEPTH_SCALE_FACTOR : ℚ) + MINIMUM_DISTANCE_METERS ∧
    (encode_meters_to_u16 1 =
      Int.toNat ⌊((1 : ℚ) - MINIMUM_DISTANCE_METERS) * (DEPTH_SCALE_FACTOR : ℚ)⌋ ∧
    (∀ code : Nat, decode_u16_to_meters code =
      (code : ℚ) / (DEPTH_SCALE_FACTOR : ℚ) + MINIMUM_DISTANCE_METERS) ∧
    |decode_u16_to_meters (encode_meters_to_u16 1) - 1| ≤
      1 / (DEPTH_SCALE_FACTOR : ℚ)) :=
  ⟨by norm_num [MINIMUM_DISTANCE_METERS],
   by norm_num [MINIMUM_DISTANCE_METERS, DEPTH_SCALE_FACTOR],
   claim_C2 1 (by norm_num [MINIMUM_DISTANCE_METERS])
     (by norm_num [MINIMUM_DISTANCE_METERS, DEPTH_SCALE_FACTOR])⟩

/-- C3 counterexample: at `meters = 0` (below `MIN_METERS = 0.5`) the code
yields `0` — the saturating Rust float-to-int cast — whereas 16-bit
wraparound of `floor((0 - 0.5) * 8738) = -4369` would yield `61167`. -/
theorem claim_C3_counterexample :
    (0 : ℚ) < MINIMUM_DISTANCE_METERS ∧
    encode_meters_to_u16 0 = 0 ∧
    Int.toNat (⌊((0 : ℚ) - MINIMUM_DISTANCE_METERS) * (DEPTH_SCALE_FACTOR : ℚ)⌋ %
      2 ^ 16) = 61167 ∧
    (0 : Nat) ≠ 61167 := by
  have hval : ((0 : ℚ) - MINIMUM_DISTANCE_METERS) * (DEPTH_SCALE_FACTOR : ℚ) = -4369 := by
    norm_num [MINIMUM_DISTANCE_METERS, DEPTH_SCALE_FACTOR]
  have hfl : ⌊((0 : ℚ) - MINIMUM_DISTANCE_METERS) * (DEPTH_SCALE_FACTOR : ℚ)⌋ = -4369 := by
    rw [hval]
    exact_mod_cast Int.floor_intCast (α := ℚ) (-4369)
  refine ⟨by norm_num [MINIMUM_DISTANCE_METERS], ?_, ?_, by decide⟩
  · simp only [encode_meters_to_u16, hval]
    rw [if_pos (by norm_num)]
  · rw [hfl]
    decide

/-- C3 amended: out-of-range inputs do not wrap in 16-bit arithmetic; the
float-to-int `as u16` cast saturates, so every input below `MIN_METERS`
encodes to `0` and every input beyond `65535/SCALE + MIN_METERS` encodes
to `65535`. -/
theorem claim_C3 (m : ℚ) :
    (m < MINIMUM_DISTANCE_METERS → encode_meters_to_u16 m = 0) ∧
    (65535 / (DEPTH_SCALE_FACTOR : ℚ) + MINIMUM_DISTANCE_METERS < m →
      encode_meters_to_u16 m = 65535) := by
  have hS : (DEPTH_SCALE_FACTOR : ℚ) = 8738 := by norm_num [DEPTH_SCALE_FACTOR]
  have hMin : MINIMUM_DISTANCE_METERS = 1 / 2 := rfl
  constructor
  · intro hm
    simp only [encode_meters_to_u16]
    rw [if_pos]
    exact mul_neg_of_neg_of_pos (by linarith [hm]) (by rw [hS]; norm_num)
  · intro hm
    rw [hS, hMin] at hm
    have hx : (65535 : ℚ) < (m - MINIMUM_DISTANCE_METERS) * (DEPTH_SCALE_FACTOR : ℚ) := by
      rw [hS, hMin]; nlinarith
    simp only [encode_meters_to_u16]
    rw [if_neg (not_lt.mpr (by linarith)), min_eq_left]
    have h : (65535 : ℤ) ≤ ⌊(m - MINIMUM_DISTANCE_METERS) * (DEPTH_SCALE_FACTOR : ℚ)⌋ :=
      Int.le_floor.mpr (by exact_mod_cast le_of_lt hx)
    omega

/-- C3 witness: the amended behavior at `m = 0` (below range) and `m = 10`
(beyond the ~8 m maximum representable distance). -/
theorem claim_C3_witness :
    encode_meters_to_u16 0 = 0 ∧ encode_meters_to_u16 10 = 65535 :=
  ⟨(claim_C3 0).1 (by norm_num [MINIMUM_DISTANCE_METERS]),
   (claim_C3 10).2 (by norm_num [MINIMUM_DISTANCE_METERS, DEPTH_SCALE_FACTOR])⟩

/-- C5: `get_data_from_pixel` returns the three channel bytes, correctly
assigned to the `r`/`g`/`b` fields, for the one supported layout
(`PixelKind::Bgr8`), and fails fatally for every other pixel layout. -/
theorem claim_C5 :
    (∀ b g r, get_data_from_pixel (PixelKind.Bgr8 b g r) = some ⟨b, g, r⟩) ∧
    (∀ p, (∀ b g r, p ≠ PixelKind.Bgr8 b g r) → get_data_from_pixel p = none) := by
  refine ⟨fun b g r => rfl, fun p hp => ?_⟩
  cases p with
  | Bgr8 b g r => exact absurd rfl (hp b g r)
  | Yuyv y u v => rfl
  | Uyvy u y v => rfl
  | Bgra8 b g r a => rfl
  | Rgb8 r g b => rfl
  | Rgba8 r g b a => rfl
  | Raw8 v => rfl
  | Y8 y => rfl
  | Y16 y => rfl
  | Z16 d => rfl
  | Distance d => rfl
  | Xyz32f a c e => rfl

/-- C5 witness: a concrete supported pixel and a concrete unsupported one. -/
theorem claim_C5_witness :
    get_data_from_pixel (PixelKind.Bgr8 1 2 3) = some ⟨1, 2, 3⟩ ∧
    get_data_from_pixel (PixelKind.Y8 7) = none :=
  ⟨claim_C5.1 1 2 3,
   claim_C5.2 (PixelKind.Y8 7) (fun _ _ _ h => PixelKind.noConfusion h)⟩

theorem encode_one_meter : encode_meters_to_u16 1 = 4369 := by
  have hval : ((1 : ℚ) - MINIMUM_DISTANCE_METERS) * (DEPTH_SCALE_FACTOR : ℚ) = 4369 := by
    norm_num [MINIMUM_DISTANCE_METERS, DEPTH_SCALE_FACTOR]
  have hfl : ⌊(4369 : ℚ)⌋ = 4369 := by
    exact_mod_cast Int.floor_intCast (α := ℚ) 4369
  simp only [encode_meters_to_u16, hval, hfl]
  rw [if_neg (by norm_num)]
  rfl

/-- C6: the depth builder produces data of length `width*height` in row-major
order with `data[row*width+col]` the quantized sample at `(col, row)`; the
color builder (when every pixel is supported) produces data of length
`width*height*3` with each pixel expanded to exactly 3 bytes, row-major. -/
theorem claim_C6 (dframe : DepthFrame) (dts : Nat) (cframe : ColorFrame) (cts : Nat)
    (hsupp : ∀ row col, row < cframe.height → col < cframe.width →
      ∃ px, get_data_from_pixel (cframe.get col row) = some px) :
    (DepthFrameSerializable.new dframe dts).data.length =
      dframe.width * dframe.height ∧
    (∀ row col, row < dframe.height → col < dframe.width →
      (DepthFrameSerializable.new dframe dts).data[row * dframe.width + col]? =
        some (encode_meters_to_u16 (dframe.distance col row))) ∧
    ∃ c, ColorFrameSerializable.new cframe cts = some c ∧
      c.data.length = cframe.width * cframe.height * 3 ∧
      ∀ row col px, row < cframe.height → col < cframe.width →
        get_data_from_pixel (cframe.get col row) = some px →
        (c.data.drop ((row * cframe.width + col) * 3)).take 3 =
          [px.r, px.g, px.b] := by
  refine ⟨DepthFrameSerializable.new_data_length dframe dts, ?_, ?_⟩
  · intro row col hrow hcol
    set L : List (List Nat) := (List.range dframe.height).map (fun r =>
      (List.range dframe.width).map (fun c =>
        encode_meters_to_u16 (dframe.distance c r))) with hLdef
    have hdata : (DepthFrameSerializable.new dframe dts).data = L.flatten := rfl
    have hk : ∀ l ∈ L, l.length = dframe.width := by
      intro l hl
      obtain ⟨r, _, rfl⟩ := List.mem_map.mp hl
      simp
    have hiL : row < L.length := by simp [hLdef, hrow]
    rw [hdata, flatten_get_chunk dframe.width L hk row col hiL hcol]
    have hgetD : L.getD row [] = (List.range dframe.width).map (fun c =>
        encode_meters_to_u16 (dframe.distance c row)) := by
      rw [List.getD_eq_getElem L [] hiL]
      simp [hLdef, hrow]
    rw [hgetD]
    simp [List.getElem?_map, List.getElem?_range hcol]
  · have hrgb := rgbRowMajor_eq_of_supported cframe hsupp
    set rows : List (List Nat) := (List.range cframe.height).map (fun r =>
      ((List.range cframe.width).map (pixelTriplet cframe r)).flatten) with hrowsdef
    have hk3 : ∀ r, r < cframe.height →
        ∀ t ∈ (List.range cframe.width).map (pixelTriplet cframe r), t.length = 3 := by
      intro r hr t ht
      obtain ⟨c, hc, rfl⟩ := List.mem_map.mp ht
      obtain ⟨px, hpx⟩ := hsupp r c hr (List.mem_range.mp hc)
      rw [pixelTriplet_eq cframe r c px hpx]
      rfl
    have hkrows : ∀ l ∈ rows, l.length = cframe.width * 3 := by
      intro l hl
      obtain ⟨r, hr, rfl⟩ := List.mem_map.mp hl
      rw [flatten_length_const 3 _ (hk3 r (List.mem_range.mp hr))]
      simp
    refine ⟨⟨cframe.width, cframe.height, rows.flatten, cts⟩, ?_, ?_, ?_⟩
    · simp only [ColorFrameSerializable.new, hrgb, hrowsdef, Option.map_some']
    · show rows.flatten.length = cframe.width * cframe.height * 3
      rw [flatten_length_const (cframe.width * 3) rows hkrows]
      have : rows.length = cframe.height := by simp [hrowsdef]
      rw [this]
      ring
    · intro row col px hrow hcol hpx
      show (rows.flatten.drop ((row * cframe.width + col) * 3)).take 3 = _
      have hrowlen : row < rows.length := by simp [hrowsdef, hrow]
      have harith : (row * cframe.width + col) * 3 =
          row * (cframe.width * 3) + col * 3 := by ring
      rw [harith, ← List.drop_drop,
        flatten_drop_chunk (cframe.width * 3) rows hkrows row hrowlen]
      have hgetD : rows.getD row [] =
          ((List.range cframe.width).map (pixelTriplet cframe row)).flatten := by
        rw [List.getD_eq_getElem rows [] hrowlen]
        simp [hrowsdef, hrow]
      rw [hgetD]
      have hflen : ((List.range cframe.width).map (pixelTriplet cframe row)).flatten.length =
          cframe.width * 3 := by
        rw [flatten_length_const 3 _ (hk3 row hrow)]
        simp
      rw [List.drop_append_of_le_length (by rw [hflen]; omega),
        flatten_drop_chunk 3 _ (hk3 row hrow) col (by simp [hcol])]
      have hgetD2 : ((List.range cframe.width).map (pixelTriplet cframe row)).getD col [] =
          [px.r, px.g, px.b] := by
        rw [List.getD_eq_getElem _ [] (by simp [hcol])]
        simp [hcol, pixelTriplet_eq cframe row col px hpx]
      rw [hgetD2]
      rfl

/-- C6 witness: the builders on the concrete 1x1 frames; the quantized code
for 1 meter is `floor((1 - 0.5) * 8738) = 4369` and the BGR8 pixel
`(b,g,r) = (1,2,3)` is emitted as `[r, g, b] = [3, 2, 1]`. -/
theorem claim_C6_witness :
    (DepthFrameSerializable.new depthFrame0 0).data.length = 1 ∧
    (DepthFrameSerializable.new depthFrame0 0).data[0]? = some 4369 ∧
    ∃ c, ColorFrameSerializable.new colorFrame0 0 = some c ∧
      c.data.length = 3 ∧ (c.data.drop 0).take 3 = [3, 2, 1] := by
  obtain ⟨h1, h2, c, hc, hlen, htrip⟩ :=
    claim_C6 depthFrame0 0 colorFrame0 0
      (fun row col _ _ => ⟨⟨1, 2, 3⟩, rfl⟩)
  refine ⟨by simpa [depthFrame0] using h1, ?_, c, hc,
    by simpa [colorFrame0] using hlen, ?_⟩
  · have h := h2 0 0 (by norm_num [depthFrame0]) (by norm_num [depthFrame0])
    simpa [depthFrame0, encode_one_meter] using h
  · have h := htrip 0 0 ⟨1, 2, 3⟩ (by norm_num [colorFrame0])
      (by norm_num [colorFrame0]) rfl
    simpa [colorFrame0] using h

/-- C7: `CombinedFrameWire::encode` serializes the five fields in order
(rgb payload, depth payload, width as `u16`, height as `u16`, timestamp as
`f64`) and applies exactly one lossless compression pass at the fixed low
level 1 over the serialized record; `decode` is the exact inverse
(decompress, then deserialize), so `decode(encode(w)) = w`. -/
theorem claim_C7 (z : Zstd) (hz : z.Lossless) (w : CombinedFrameWire)
    (h1 : w.rgb_jpeg.length < 2 ^ 64) (h2 : w.depth_zstd.length < 2 ^ 64)
    (h3 : w.width < 2 ^ 16) (h4 : w.height < 2 ^ 16) (h5 : w.timestamp < 2 ^ 64) :
    w.encode z = z.comp 1 (encodeVecU8 w.rgb_jpeg ++ encodeVecU8 w.depth_zstd ++
      encodeVarint w.width ++ encodeVarint w.height ++ encodeF64 w.timestamp) ∧
    CombinedFrameWire.decode z (w.encode z) = some w := by
  refine ⟨rfl, ?_⟩
  have hbd : CombinedFrameWire.bincodeDecode w.bincodeEncode = some (w, []) := by
    simpa using wireRecord_decode_encode w [] h1 h2 h3 h4 h5
  simp only [CombinedFrameWire.encode, CombinedFrameWire.decode, hz 1 _,
    Option.bind_eq_bind, Option.some_bind, hbd]

/-- C7 witness: the round trip on a concrete five-field wire record through
the model zstd instance. -/
theorem claim_C7_witness :
    (CombinedFrameWire.encode zstdModel ⟨[1, 2], [3], 4, 5, 6⟩ =
      zstdModel.comp 1 (encodeVecU8 [1, 2] ++ encodeVecU8 [3] ++
        encodeVarint 4 ++ encodeVarint 5 ++ encodeF64 6)) ∧
    CombinedFrameWire.decode zstdModel
      (CombinedFrameWire.encode zstdModel ⟨[1, 2], [3], 4, 5, 6⟩) =
      some ⟨[1, 2], [3], 4, 5, 6⟩ :=
  claim_C7 zstdModel zstdModel_lossless ⟨[1, 2], [3], 4, 5, 6⟩
    (by norm_num) (by norm_num) (by norm_num) (by norm_num) (by norm_num)

/-- C9: `MotionFrameData::decodeAndDecompress` inverts
`MotionFrameData::encodeAndCompress` bit-exactly (gyro, accel and timestamp),
and `encodeAndCompress` — despite its name — is only the bincode
serialization of the seven float bit patterns, with no compression layer. -/
theorem claim_C9 (m : MotionFrameData)
    (hg1 : m.gyro.1 < 2 ^ 32) (hg2 : m.gyro.2.1 < 2 ^ 32) (hg3 : m.gyro.2.2 < 2 ^ 32)
    (ha1 : m.accel.1 < 2 ^ 32) (ha2 : m.accel.2.1 < 2 ^ 32) (ha3 : m.accel.2.2 < 2 ^ 32)
    (hts : m.timestamp < 2 ^ 64) :
    MotionFrameData.decodeAndDecompress m.encodeAndCompress = some m ∧
    m.encodeAndCompress = encodeF32 m.gyro.1 ++ encodeF32 m.gyro.2.1 ++
      encodeF32 m.gyro.2.2 ++ encodeF32 m.accel.1 ++ encodeF32 m.accel.2.1 ++
      encodeF32 m.accel.2.2 ++ encodeF64 m.timestamp := by
  refine ⟨?_, rfl⟩
  have hf : parseF64 (encodeF64 m.timestamp) = some (m.timestamp, []) := by
    simpa using parseF64_encodeF64 m.timestamp [] hts
  simp only [MotionFrameData.encodeAndCompress, MotionFrameData.decodeAndDecompress,
    List.append_assoc, Option.bind_eq_bind,
    parseF32_encodeF32 _ _ hg1, Option.some_bind,
    parseF32_encodeF32 _ _ hg2, parseF32_encodeF32 _ _ hg3,
    parseF32_encodeF32 _ _ ha1, parseF32_encodeF32 _ _ ha2,
    parseF32_encodeF32 _ _ ha3, hf]

/-- C9 witness: the motion round trip at a concrete sample. -/
theorem claim_C9_witness :
    MotionFrameData.decodeAndDecompress
      (MotionFrameData.encodeAndCompress ⟨(1, 2, 3), (4, 5, 6), 7⟩) =
      some ⟨(1, 2, 3), (4, 5, 6), 7⟩ ∧
    MotionFrameData.encodeAndCompress ⟨(1, 2, 3), (4, 5, 6), 7⟩ =
      encodeF32 1 ++ encodeF32 2 ++ encodeF32 3 ++ encodeF32 4 ++ encodeF32 5 ++
        encodeF32 6 ++ encodeF64 7 :=
  claim_C9 ⟨(1, 2, 3), (4, 5, 6), 7⟩ (by norm_num) (by norm_num) (by norm_num)
    (by norm_num) (by norm_num) (by norm_num) (by norm_num)

/-- C4: for every color-envelope byte sequence whose embedded image payload
does not begin with the JPEG SOI bytes `0xFF 0xD8`, the color decode path
(`ColorFrameSerializable::decodeAndDecompress`, and the JPEG decompression
inside `CombinedFrameWire::unpack`) fails deterministically (`none`), never
returning fabricated pixel data. -/
theorem claim_C4 (z : Zstd) (j : Jpeg) (hj : j.SoiRequired)
    (encoded image rest : List Nat)
    (henv : parseVecU8 encoded = some (image, rest))
    (hmagic : image.take 2 ≠ [255, 216]) :
    ColorFrameSerializable.decodeAndDecompress j encoded = none ∧
    ∀ w : CombinedFrameWire, w.rgb_jpeg = image →
      CombinedFrameWire.unpack z j w = none := by
  constructor
  · simp only [ColorFrameSerializable.decodeAndDecompress, henv,
      Option.bind_eq_bind, Option.some_bind]
    cases hped : parseF64 rest with
    | none => simp
    | some p => simp [hmagic]
  · intro w hw
    simp only [CombinedFrameWire.unpack, hw, hj image hmagic,
      Option.bind_eq_bind, Option.none_bind]

/-- C4 witness: a concrete envelope embedding the non-JPEG payload `[0, 0]`,
and a concrete wire message with the same payload. -/
theorem claim_C4_witness :
    parseVecU8 (encodeVecU8 [0, 0] ++ encodeF64 0) = some ([0, 0], encodeF64 0) ∧
    ColorFrameSerializable.decodeAndDecompress jpegModel
      (encodeVecU8 [0, 0] ++ encodeF64 0) = none ∧
    CombinedFrameWire.unpack zstdModel jpegModel ⟨[0, 0], [], 0, 0, 0⟩ = none :=
  ⟨by decide,
   (claim_C4 zstdModel jpegModel jpegModel_soiRequired
     (encodeVecU8 [0, 0] ++ encodeF64 0) [0, 0] (encodeF64 0)
     (by decide) (by decide)).1,
   (claim_C4 zstdModel jpegModel jpegModel_soiRequired
     (encodeVecU8 [0, 0] ++ encodeF64 0) [0, 0] (encodeF64 0)
     (by decide) (by decide)).2 ⟨[0, 0], [], 0, 0, 0⟩ rfl⟩

theorem from_frames_concrete :
    CombinedFrameWire.from_frames zstdModel jpegModel depthFrame0 colorFrame0 =
      some wire0 := by
  have hnew : DepthFrameSerializable.new depthFrame0 depthFrame0.timestamp =
      ⟨1, 1, [4369], 0⟩ := by
    simp [DepthFrameSerializable.new, depthFrame0, encode_one_meter]
  simp only [CombinedFrameWire.from_frames, hnew]
  decide

/-- C8: every combined message built by `from_frames` from frames captured at
matching resolution (fitting in `u16`) carries outer `width`/`height` equal to
the color frame's dimensions and to the dimensions stored inside the embedded
depth record, and its outer timestamp is the depth frame's timestamp. -/
theorem claim_C8 (z : Zstd) (j : Jpeg) (hz : z.Lossless)
    (depth : DepthFrame) (color : ColorFrame) (wire : CombinedFrameWire)
    (hf : CombinedFrameWire.from_frames z j depth color = some wire)
    (hmw : depth.width = color.width) (hmh : depth.height = color.height)
    (hw16 : color.width < 2 ^ 16) (hh16 : color.height < 2 ^ 16)
    (hts : depth.timestamp < 2 ^ 64) :
    wire.width = color.width ∧ wire.height = color.height ∧
    wire.timestamp = depth.timestamp ∧
    ∃ rec rest,
      (z.decomp wire.depth_zstd).bind DepthFrameSerializable.bincodeDecode =
        some (rec, rest) ∧
      rec.width = wire.width ∧ rec.height = wire.height := by
  simp only [CombinedFrameWire.from_frames] at hf
  obtain ⟨rgb, hrgb, hwire⟩ := Option.map_eq_some'.mp hf
  have hwidth : wire.width = color.width := by
    rw [← hwire]; exact Nat.mod_eq_of_lt hw16
  have hheight : wire.height = color.height := by
    rw [← hwire]; exact Nat.mod_eq_of_lt hh16
  have htsw : wire.timestamp = depth.timestamp := by rw [← hwire]
  have hdz : wire.depth_zstd =
      z.comp 3 (DepthFrameSerializable.new depth depth.timestamp).bincodeEncode := by
    rw [← hwire]
  have hdsdec : DepthFrameSerializable.bincodeDecode
      (DepthFrameSerializable.new depth depth.timestamp).bincodeEncode =
      some (DepthFrameSerializable.new depth depth.timestamp, []) := by
    have h := depthRecord_decode_encode
      (DepthFrameSerializable.new depth depth.timestamp) []
      (by show depth.width < 2 ^ 64; rw [hmw]; exact lt_trans hw16 (by norm_num))
      (by show depth.height < 2 ^ 64; rw [hmh]; exact lt_trans hh16 (by norm_num))
      (by rw [DepthFrameSerializable.new_data_length]
          calc depth.width * depth.height < 2 ^ 16 * 2 ^ 16 := by
                rw [hmw, hmh]; exact Nat.mul_lt_mul_of_lt_of_lt hw16 hh16
            _ < 2 ^ 64 := by norm_num)
      (DepthFrameSerializable.new_data_lt depth depth.timestamp)
      (by show depth.timestamp < 2 ^ 64; exact hts)
    simpa using h
  refine ⟨hwidth, hheight, htsw, DepthFrameSerializable.new depth depth.timestamp,
    [], ?_, ?_, ?_⟩
  · rw [hdz, hz 3 _]
    simpa using hdsdec
  · show depth.width = wire.width
    rw [hwidth, hmw]
  · show depth.height = wire.height
    rw [hheight, hmh]

/-- C8 witness: the invariant on the concrete 1x1 frame pair. -/
theorem claim_C8_witness :
    wire0.width = colorFrame0.width ∧ wire0.height = colorFrame0.height ∧
    wire0.timestamp = depthFrame0.timestamp ∧
    ∃ rec rest,
      (zstdModel.decomp wire0.depth_zstd).bind
        DepthFrameSerializable.bincodeDecode = some (rec, rest) ∧
      rec.width = wire0.width ∧ rec.height = wire0.height :=
  claim_C8 zstdModel jpegModel zstdModel_lossless depthFrame0 colorFrame0 wire0
    from_frames_concrete rfl rfl (by norm_num [colorFrame0])
    (by norm_num [colorFrame0]) (by norm_num [depthFrame0])

/-- C1: packing a depth and a color frame with `from_frames`, encoding with
`encode`, decoding with `decode` and calling `unpack` reproduces the depth
frame's quantized codes exactly (bit-exact through the bincode and zstd
lossless layers), together with the outer width, height and timestamp
unchanged (the timestamp being the depth frame's). -/
theorem claim_C1 (z : Zstd) (j : Jpeg) (hz : z.Lossless)
    (depth : DepthFrame) (color : ColorFrame) (wire : CombinedFrameWire)
    (hf : CombinedFrameWire.from_frames z j depth color = some wire)
    (hjd : (j.decomp wire.rgb_jpeg).isSome)
    (h1 : wire.rgb_jpeg.length < 2 ^ 64) (h2 : wire.depth_zstd.length < 2 ^ 64)
    (hdw : depth.width < 2 ^ 64) (hdh : depth.height < 2 ^ 64)
    (hdwh : depth.width * depth.height < 2 ^ 64) (hts : depth.timestamp < 2 ^ 64) :
    CombinedFrameWire.decode z (wire.encode z) = some wire ∧
    (∃ rgb_out, CombinedFrameWire.unpack z j wire =
      some (rgb_out, (DepthFrameSerializable.new depth depth.timestamp).data,
        wire.width, wire.height, wire.timestamp)) ∧
    wire.timestamp = depth.timestamp := by
  simp only [CombinedFrameWire.from_frames] at hf
  obtain ⟨rgb, hrgb, hwire⟩ := Option.map_eq_some'.mp hf
  have hwidth : wire.width < 2 ^ 16 := by
    rw [← hwire]; exact Nat.mod_lt _ (by norm_num)
  have hheight : wire.height < 2 ^ 16 := by
    rw [← hwire]; exact Nat.mod_lt _ (by norm_num)
  have htsw : wire.timestamp = depth.timestamp := by rw [← hwire]
  have hdz : wire.depth_zstd =
      z.comp 3 (DepthFrameSerializable.new depth depth.timestamp).bincodeEncode := by
    rw [← hwire]
  have hdsdec : DepthFrameSerializable.bincodeDecode
      (DepthFrameSerializable.new depth depth.timestamp).bincodeEncode =
      some (DepthFrameSerializable.new depth depth.timestamp, []) := by
    have h := depthRecord_decode_encode
      (DepthFrameSerializable.new depth depth.timestamp) []
      (by show depth.width < 2 ^ 64; exact hdw)
      (by show depth.height < 2 ^ 64; exact hdh)
      (by rw [DepthFrameSerializable.new_data_length]; exact hdwh)
      (DepthFrameSerializable.new_data_lt depth depth.timestamp)
      (by show depth.timestamp < 2 ^ 64; exact hts)
    simpa using h
  refine ⟨?_, ?_, htsw⟩
  · have hbd : CombinedFrameWire.bincodeDecode wire.bincodeEncode =
        some (wire, []) := by
      simpa using wireRecord_decode_encode wire [] h1 h2
        hwidth hheight (by rw [htsw]; exact hts)
    simp only [CombinedFrameWire.encode, CombinedFrameWire.decode, hz 1 _,
      Option.bind_eq_bind, Option.some_bind, hbd]
  · obtain ⟨⟨jw, jh, rgbout⟩, hjsome⟩ := Option.isSome_iff_exists.mp hjd
    refine ⟨rgbout, ?_⟩
    simp only [CombinedFrameWire.unpack, hjsome, hdz, hz 3 _,
      Option.bind_eq_bind, Option.some_bind, hdsdec]

/-- C1 witness: the full pack / encode / decode / unpack pipeline on the
concrete 1x1 frame pair through the model codecs. -/
theorem claim_C1_witness :
    CombinedFrameWire.decode zstdModel (wire0.encode zstdModel) = some wire0 ∧
    (∃ rgb_out, CombinedFrameWire.unpack zstdModel jpegModel wire0 =
      some (rgb_out,
        (DepthFrameSerializable.new depthFrame0 depthFrame0.timestamp).data,
        wire0.width, wire0.height, wire0.timestamp)) ∧
    wire0.timestamp = depthFrame0.timestamp :=
  claim_C1 zstdModel jpegModel zstdModel_lossless depthFrame0 colorFrame0 wire0
    from_frames_concrete (by decide) (by decide) (by decide)
    (by norm_num [depthFrame0]) (by norm_num [depthFrame0])
    (by norm_num [depthFrame0]) (by norm_num [depthFrame0])

/-- C10: the claimed round trip fails on the code: `encodeAndCompress`
zstd-compresses the bincode bytes (level 6), but `decodeAndDecompress`
bincode-decodes its input directly with no decompression step, so feeding an
encoded `CombinedFrame` back yields a decode failure, not the original value
(shown at a concrete frame; the model zstd prepends the genuine zstd frame
magic `0x28 0xB5 0x2F 0xFD`, which bincode then misparses). -/
theorem claim_C10_bug :
    CombinedFrame.decodeAndDecompress
      (CombinedFrame.encodeAndCompress zstdModel
        ⟨⟨0, 0, [], 0⟩, ⟨0, 0, [], 0⟩, 0⟩) ≠
      some ⟨⟨0, 0, [], 0⟩, ⟨0, 0, [], 0⟩, 0⟩ := by
  decide

end ZenohD435i
